import Mathlib

/-!
Verification of the fourkeys-go event normalization and authentication pipeline.

The Go sources embedded here:
- `packages/shared/map.go` : generic safe map navigation (`LookupMap`, `LookupMapE`).
- `packages/github-parser/src/cmd/main.go` : the consumer endpoint (`indexPost`)
  and the event normalizer (`processGithubEvent`).
- `event-handler/cmd/main.go` : webhook signature verification
  (`verifyGithubSignature256`).

Modelling conventions:
- Go `interface{}` values produced by `json.Unmarshal` (and by hand-written map
  literals) are modelled by the inductive `JValue`; `map[string]interface{}` is a
  `JValue.jobj` over an association list (Go JSON objects have unique keys).
- Go `float64` is modelled by `ℚ` (every concrete JSON number in the claims is
  exactly representable; no float rounding is at stake in any claim).
- Go byte strings (`[]byte`, and `string` where the source indexes by byte) are
  `List Nat` with each entry `< 256`.
- A Go runtime panic (out-of-range index / slice) is modelled by an explicit
  outcome (`Option.none`, or the `ProcessResult.panicked` constructor); calls into
  external services (HMAC via crypto/hmac+crypto/sha256, JSON decoding, BigQuery
  insertion, RFC 3339 parsing via the time stdlib) are abstracted at their
  interface, as noted at each definition.
-/

/-- Go dynamic values as they occur in a decoded `map[string]interface{}` tree.
`json.Unmarshal` only ever produces `jstr`, `jnum` (Go `float64`), `jbool`,
`jnull`, `jarr` and `jobj`; `jint` (Go `int`) can additionally occur in
hand-constructed maps, and is a distinct dynamic type from `jnum`. -/
inductive JValue where
  | jstr (s : String)
  | jnum (q : ℚ)
  | jint (n : Int)
  | jbool (b : Bool)
  | jnull
  | jarr (elems : List JValue)
  | jobj (fields : List (String × JValue))

/-- A decoded JSON object (`map[string]interface{}`): association list with
unique keys. -/
abbrev JObj := List (String × JValue)

/-- Go map indexing `m[key]` with its presence flag (`val, ok := m[key]`). -/
def lookupField : JObj → String → Option JValue
  | [], _ => none
  | (k2, v) :: rest, k => if k2 = k then some v else lookupField rest k

/-- The key-walking loop shared by `LookupMap` and `LookupMapE`
(`packages/shared/map.go`): at each step the current value must type-assert to
`map[string]interface{}` and the key must be present; `none` is any failed
step (failed map assertion or absent key). The initial value is the root map
itself, hence callers pass `.jobj root`. -/
def walkKeys : JValue → List String → Option JValue
  | val, [] => some val
  | val, k :: ks =>
    match val with
    | .jobj fields =>
      match lookupField fields k with
      | some v => walkKeys v ks
      | none => none
    | _ => none

/-- The structured content of the errors built by `LookupMapE`:
- `notAMap walked` : `fmt.Errorf("key %s is not a map: %v", strings.Join(walkedKeys, "."), m)`
  (at that point `m` is the nil map left by the failed type assertion, so the
  walked prefix is the only information carried);
- `keyNotFound walked m` : `fmt.Errorf("key %s not found in %v", strings.Join(walkedKeys, "."), m)`
  where `walked` already ends with the missing key (the source appends the key
  to `walkedKeys` before the lookup);
- `typeMismatch v tyName` : `fmt.Errorf("value %v is not of type %T", val, result)`. -/
inductive LookupErr where
  | notAMap (walked : List String)
  | keyNotFound (walked : List String) (m : JObj)
  | typeMismatch (v : JValue) (tyName : String)

/-- The walking loop of `LookupMapE`, accumulating `walkedKeys`. -/
def walkKeysE : List String → JValue → List String → Except LookupErr JValue
  | _, val, [] => .ok val
  | walked, val, k :: ks =>
    match val with
    | .jobj fields =>
      match lookupField fields k with
      | some v => walkKeysE (walked ++ [k]) v ks
      | none => .error (.keyNotFound (walked ++ [k]) fields)
    | _ => .error (.notAMap walked)

/-- The behaviour of a Go type parameter `T` under the dynamic type assertion
`val.(T)`: the zero value of `T`, which values of the decoded tree assert to
`T`, and the name `%T` prints. -/
class GoDyn (T : Type) where
  zero : T
  assert : JValue → Option T
  tyName : String

instance : GoDyn String where
  zero := ""
  assert
    | .jstr s => some s
    | _ => none
  tyName := "string"

/-- Go `float64`: only a `float64` dynamic value asserts to it. -/
instance : GoDyn ℚ where
  zero := 0
  assert
    | .jnum q => some q
    | _ => none
  tyName := "float64"

/-- Go `int`: only an `int` dynamic value asserts to it; in particular a JSON
number decoded as `float64` does not. -/
instance : GoDyn Int where
  zero := 0
  assert
    | .jint n => some n
    | _ => none
  tyName := "int"

/-- `LookupMap[T](m, keys...)` from `packages/shared/map.go`: walk the keys,
then type-assert the final value; every failure returns `(zero, false)`. -/
def LookupMap (T : Type) [GoDyn T] (m : JObj) (keys : List String) : T × Bool :=
  match walkKeys (.jobj m) keys with
  | none => (GoDyn.zero, false)
  | some val =>
    match GoDyn.assert (T := T) val with
    | none => (GoDyn.zero, false)
    | some result => (result, true)

/-- `LookupMapE[T](m, keys...)` from `packages/shared/map.go`: same walk, but
each failure produces the structured error described at `LookupErr`. -/
def LookupMapE (T : Type) [GoDyn T] (m : JObj) (keys : List String) :
    Except LookupErr T :=
  match walkKeysE [] (.jobj m) keys with
  | .error e => .error e
  | .ok val =>
    match GoDyn.assert (T := T) val with
    | none => .error (.typeMismatch val (GoDyn.tyName (T := T)))
    | some result => .ok result

/-- The decoded `attributes.headers` mapping (`map[string][]string`), unique
keys. -/
abbrev Headers := List (String × List String)

/-- Go map indexing `headers[k]` on a `map[string][]string`: a missing key
yields the zero value, a nil (empty) slice. -/
def getHeader (headers : Headers) (k : String) : List String :=
  match headers.lookup k with
  | some vs => vs
  | none => []

/-- The recognized-type set `eventTypes` of
`packages/github-parser/src/cmd/main.go` (a `map[string]bool` whose lookup
defaults to `false`, modelled by list membership). -/
def eventTypes : List String :=
  ["push", "pull_request", "pull_request_review", "pull_request_review_comment",
   "issues", "issue_comment", "check_run", "check_suite", "status",
   "deployment_status", "release"]

/-- Go `int(f)` on a `float64`: truncation toward zero (on `ℚ`, `Int` division
of numerator by denominator, which truncates toward zero). -/
def intOfFloat64 (q : ℚ) : Int := q.num / (q.den : Int)

/-- The components of a Go `time.Time` that RFC 3339 parsing determines. -/
structure GoTime where
  year : Nat
  month : Nat
  day : Nat
  hour : Nat
  minute : Nat
  second : Nat
  nanosecond : Nat
  offsetMinutes : Int
deriving DecidableEq

/-- Decimal digit value of a character. -/
def digitVal (c : Char) : Option Nat :=
  if c.isDigit then some (c.toNat - 48) else none

/-- Two-digit decimal field. -/
def num2 (a b : Char) : Option Nat := do
  let x ← digitVal a
  let y ← digitVal b
  pure (10 * x + y)

/-- Four-digit decimal field. -/
def num4 (a b c d : Char) : Option Nat := do
  let x ← num2 a b
  let y ← num2 c d
  pure (100 * x + y)

/-- Time-zone suffix of an RFC 3339 timestamp: `Z` or `±hh:mm`. -/
def parseZone : List Char → Option Int
  | ['Z'] => some 0
  | ['+', h1, h2, ':', m1, m2] => do
    let hh ← num2 h1 h2
    let mm ← num2 m1 m2
    if 23 < hh ∨ 59 < mm then none else pure (hh * 60 + mm)
  | ['-', h1, h2, ':', m1, m2] => do
    let hh ← num2 h1 h2
    let mm ← num2 m1 m2
    if 23 < hh ∨ 59 < mm then none else pure (-(hh * 60 + mm : Int))
  | _ => none

/-- Decimal value of a digit list (most significant first). -/
def digitsVal : List Char → Option Nat
  | [] => some 0
  | c :: cs => do
    let d ← digitVal c
    let rest ← digitsVal cs
    pure (d * 10 ^ cs.length + rest)

/-- Fractional-second digits to nanoseconds, as Go does (at most nine digits
are significant). -/
def fracToNanos (ds : List Char) : Option Nat := do
  let v ← digitsVal (ds.take 9)
  pure (v * 10 ^ (9 - (ds.take 9).length))

/-- Modelled from the Go stdlib: `time.Parse(time.RFC3339, s)` (layout
`2006-01-02T15:04:05Z07:00`, with Go's optional fractional seconds).
Simplification: the day of month is validated only against `1..31`, not against
the month/leap-year table; every claim below uses the parser either on a day
that exists or purely as a hypothesis, so the difference is not load-bearing. -/
def parseRFC3339 (s : String) : Option GoTime :=
  match s.data with
  | y1 :: y2 :: y3 :: y4 :: '-' :: mo1 :: mo2 :: '-' :: d1 :: d2 :: 'T' ::
    h1 :: h2 :: ':' :: mi1 :: mi2 :: ':' :: s1 :: s2 :: rest => do
    let year ← num4 y1 y2 y3 y4
    let month ← num2 mo1 mo2
    let day ← num2 d1 d2
    let hour ← num2 h1 h2
    let minute ← num2 mi1 mi2
    let second ← num2 s1 s2
    if month < 1 ∨ 12 < month then none
    else if day < 1 ∨ 31 < day then none
    else if 23 < hour then none
    else if 59 < minute then none
    else if 59 < second then none
    else
      match rest with
      | '.' :: more =>
        let ds := more.takeWhile Char.isDigit
        if ds.isEmpty then none
        else do
          let nanos ← fracToNanos ds
          let off ← parseZone (more.drop ds.length)
          pure ⟨year, month, day, hour, minute, second, nanos, off⟩
      | _ => do
        let off ← parseZone rest
        pure ⟨year, month, day, hour, minute, second, 0, off⟩
  | _ => none

/-- The local state that the `switch eventType` of `processGithubEvent`
produces: `maybeTimeCreated, id string; tOk, iOk bool; tErr, iErr error`
(all zero-initialized before the switch). -/
structure DispatchOut where
  maybeTimeCreated : String
  tOk : Bool
  tErr : Option LookupErr
  id : String
  iOk : Bool
  iErr : Option LookupErr

/-- The `switch eventType` of `processGithubEvent`
(`packages/github-parser/src/cmd/main.go`), case by case; `none` is the
`default` branch (a type with no dispatch case). -/
def dispatch (eventType : String) (metadata : JObj) : Option DispatchOut :=
  match eventType with
  | "push" =>
    let t := LookupMap String metadata ["head_commit", "timestamp"]
    let i := LookupMap String metadata ["head_commit", "id"]
    some ⟨t.1, t.2, none, i.1, i.2, none⟩
  | "pull_request" =>
    let t := LookupMap String metadata ["pull_request", "updated_at"]
    let r := LookupMap String metadata ["repository", "name"]
    let n := LookupMap ℚ metadata ["number"]
    let i := if r.2 && n.2
      then (r.1 ++ "/" ++ toString (intOfFloat64 n.1), true)
      else ("", false)
    some ⟨t.1, t.2, none, i.1, i.2, none⟩
  | "pull_request_review" =>
    some (match LookupMapE String metadata ["review", "submitted_at"],
        LookupMapE ℚ metadata ["review", "id"] with
      | .ok v, .ok q => ⟨v, true, none, toString (intOfFloat64 q), true, none⟩
      | .ok v, .error f => ⟨v, true, none, "", false, some f⟩
      | .error e, .ok q => ⟨"", false, some e, toString (intOfFloat64 q), true, none⟩
      | .error e, .error f => ⟨"", false, some e, "", false, some f⟩)
  | "pull_request_review_comment" =>
    let t := LookupMap String metadata ["comment", "updated_at"]
    let n := LookupMap ℚ metadata ["review", "id"]
    let i := if n.2 then (toString (intOfFloat64 n.1), true) else ("", false)
    some ⟨t.1, t.2, none, i.1, i.2, none⟩
  | "issues" =>
    let t := LookupMap String metadata ["issue", "updated_at"]
    let r := LookupMap String metadata ["repository", "name"]
    let n := LookupMap ℚ metadata ["issue", "number"]
    let i := if r.2 && n.2
      then (r.1 ++ "/" ++ toString (intOfFloat64 n.1), true)
      else ("", false)
    some ⟨t.1, t.2, none, i.1, i.2, none⟩
  | "issue_comment" =>
    let t := LookupMap String metadata ["comment", "updated_at"]
    let i := LookupMap String metadata ["comment", "id"]
    some ⟨t.1, t.2, none, i.1, i.2, none⟩
  | "check_run" =>
    let c := LookupMap String metadata ["check_run", "completed_at"]
    let t := if c.2 then (c.1, true)
      else
        let s := LookupMap String metadata ["check_run", "started_at"]
        if s.2 then (s.1, true) else ("", false)
    let i := LookupMap String metadata ["check_run", "id"]
    some ⟨t.1, t.2, none, i.1, i.2, none⟩
  | "check_suite" =>
    let u := LookupMap String metadata ["check_suite", "updated_at"]
    let t := if u.2 then (u.1, true)
      else
        let c := LookupMap String metadata ["check_suite", "created_at"]
        if c.2 then (c.1, true) else ("", false)
    let i := LookupMap String metadata ["check_suite", "id"]
    some ⟨t.1, t.2, none, i.1, i.2, none⟩
  | "deployment_status" =>
    let t := LookupMap String metadata ["deployment_status", "updated_at"]
    let i := LookupMap String metadata ["deployment_status", "id"]
    some ⟨t.1, t.2, none, i.1, i.2, none⟩
  | "status" =>
    let t := LookupMap String metadata ["updated_at"]
    let i := LookupMap String metadata ["id"]
    some ⟨t.1, t.2, none, i.1, i.2, none⟩
  | "release" =>
    let p := LookupMap String metadata ["release", "published_at"]
    let t := if p.2 then (p.1, true)
      else
        let c := LookupMap String metadata ["release", "created_at"]
        if c.2 then (c.1, true) else ("", false)
    let i := LookupMap String metadata ["release", "id"]
    some ⟨t.1, t.2, none, i.1, i.2, none⟩
  | _ => none

/-- One cause inside the joined error of `processGithubEvent`:
`could not find time_created`, `could not find id`, or a `LookupMapE` error
carried through `tErr`/`iErr`. -/
inductive FindErr where
  | noTimeCreated
  | noId
  | lookupE (e : LookupErr)

/-- The element appended for a failed timestamp extraction:
`if tErr == nil` then `could not find time_created` else `tErr`. -/
def tCause (d : DispatchOut) : FindErr :=
  match d.tErr with
  | none => .noTimeCreated
  | some e => .lookupE e

/-- The element appended for a failed id extraction:
`if iErr == nil` then `could not find id` else `iErr`. -/
def iCause (d : DispatchOut) : FindErr :=
  match d.iErr with
  | none => .noId
  | some e => .lookupE e

/-- The `errs` slice built when `!tOk || !iOk` (time cause first, id cause
second), joined by `errors.Join`. -/
def findErrs (d : DispatchOut) : List FindErr :=
  (if d.tOk then [] else [tCause d]) ++ (if d.iOk then [] else [iCause d])

/-- The errors `processGithubEvent` can return: the `default` branch of the
switch, the `errors.Join` of the extraction failures, and the
`time.Parse` failure. -/
inductive ProcErr where
  | notSupported (eventType : String)
  | joined (errs : List FindErr)
  | timeParse (s : String)

/-- The record inserted into the sink (`EventRecord` in
`packages/github-parser/src/cmd/main.go`). -/
structure EventRecord where
  eventType : String
  id : String
  metadata : String
  timeCreated : GoTime
  signature : String
  msgId : String
  source : String

/-- The outcome of `processGithubEvent`: Go's `(*EventRecord, error)` pair —
`skipped` is `(nil, nil)`, `produced` is `(event, nil)`, `failed` is
`(nil, err)` — plus `panicked` for the runtime panics of the two unguarded
`headers[...][0]` indexings. -/
inductive ProcessResult where
  | panicked
  | skipped
  | failed (e : ProcErr)
  | produced (ev : EventRecord)

/-- `processGithubEvent` from `packages/github-parser/src/cmd/main.go`.
The `context.Context` and logger are dropped (logging only); `reqMessage` is
reduced to the only field read, `Message.MessageId`. -/
def processGithubEvent (msgId : String) (headers : Headers) (metadata : JObj)
    (rawMetadata : String) : ProcessResult :=
  match getHeader headers "X-Github-Event" with
  | [] => .panicked
  | eventType :: _ =>
    if eventTypes.contains eventType then
      match getHeader headers "X-Hub-Signature-256" with
      | [] => .panicked
      | signature :: _ =>
        let source := if (headers.lookup "Mock").isSome then "github_mock" else "github"
        match dispatch eventType metadata with
        | none => .failed (.notSupported eventType)
        | some d =>
          if d.tOk && d.iOk then
            match parseRFC3339 d.maybeTimeCreated with
            | none => .failed (.timeParse d.maybeTimeCreated)
            | some timeCreated =>
              .produced ⟨eventType, d.id, rawMetadata, timeCreated, signature,
                msgId, source⟩
          else .failed (.joined (findErrs d))
    else .skipped

/-- The input to the consumer endpoint `indexPost`
(`packages/github-parser/src/cmd/main.go`), abstracted at the boundary of the
external decoding calls, one constructor per fallible step in source order:
`io.ReadAll(r.Body)`, `json.Unmarshal` of the pubsub envelope, `json.Unmarshal`
of `attributes.headers`, `base64.StdEncoding.DecodeString` of `data`, and
`json.Unmarshal` of the decoded payload. `decoded` carries the artifacts of a
fully successful decode. (The two `json.Marshal` calls used only to log `attrs`
and `metadata` cannot fail on values that were themselves produced by
`json.Unmarshal`, so they have no failure constructor.) -/
inductive ConsumerInput where
  | readBodyFail
  | envelopeDecodeFail
  | headersDecodeFail
  | base64DecodeFail
  | payloadDecodeFail
  | decoded (msgId : String) (attrs : Headers) (metadata : JObj) (raw : String)

/-- `indexPost` from `packages/github-parser/src/cmd/main.go`, returning the
HTTP status code it writes (`none` when `processGithubEvent` panics, in which
case no status is written by the handler). `sinkOk` abstracts the outcome of
`insertIntoBigQuery` (the external sink); it is consulted only when an event
was produced. -/
def indexPost (input : ConsumerInput) (sinkOk : Bool) : Option Nat :=
  match input with
  | .readBodyFail => some 500
  | .envelopeDecodeFail => some 500
  | .headersDecodeFail => some 500
  | .base64DecodeFail => some 500
  | .payloadDecodeFail => some 500
  | .decoded msgId attrs metadata raw =>
    match processGithubEvent msgId attrs metadata raw with
    | .panicked => none
    | .failed _ => some 200
    | .skipped => some 200
    | .produced _ =>
      if sinkOk then some 200
      else some 200

/-- Classifies the transport/decoding failure constructors of
`ConsumerInput` (stated from the spec's words, for comparison with
`indexPost`'s status codes). -/
def isTransportFail : ConsumerInput → Bool
  | .decoded _ _ _ _ => false
  | _ => true

/-- ASCII hex digit to its value, per Go `encoding/hex.fromHexChar`
(`0-9`, `a-f`, `A-F`). -/
def hexDigitVal (b : Nat) : Option Nat :=
  if 48 ≤ b ∧ b ≤ 57 then some (b - 48)
  else if 97 ≤ b ∧ b ≤ 102 then some (b - 87)
  else if 65 ≤ b ∧ b ≤ 70 then some (b - 55)
  else none

/-- Go `hex.DecodeString` (modelled from the Go stdlib): `none` on an odd
length or any non-hex byte. -/
def hexDecode : List Nat → Option (List Nat)
  | [] => some []
  | [_] => none
  | a :: b :: rest => do
    let hi ← hexDigitVal a
    let lo ← hexDigitVal b
    let tl ← hexDecode rest
    pure ((hi * 16 + lo) :: tl)

/-- One lowercase hex digit byte, per Go `encoding/hex`. -/
def hexDigitChar (v : Nat) : Nat := if v < 10 then 48 + v else 87 + v

/-- Go `hex.EncodeToString` (modelled from the Go stdlib): lowercase hex,
two digits per byte. -/
def hexEncode : List Nat → List Nat
  | [] => []
  | b :: rest => hexDigitChar (b / 16) :: hexDigitChar (b % 16) :: hexEncode rest

/-- Go `hmac.Equal` (`subtle.ConstantTimeCompare`): true exactly for equal
length and equal contents; the constant-time property itself is a timing
property outside this embedding. -/
def hmacEqual (a b : List Nat) : Bool := a == b

/-- `verifyGithubSignature256` from `event-handler/cmd/main.go`.
`hmacSha256 secret body` abstracts `hmac.New(sha256.New, secret)` over the
body (the Go crypto stdlib); `secret` is `envVars.githubWebhookSecret`; the
signature header and the body are Go byte strings. The result `none` models
the runtime panic of `signature[len(signaturePrefix):]` when the header is
shorter than the 7-byte prefix (`slice bounds out of range`); every other
outcome is `some` of the returned boolean. -/
def verifyGithubSignature256 (hmacSha256 : List Nat → List Nat → List Nat)
    (secret : List Nat) (signature : List Nat) (body : List Nat) : Option Bool :=
  let expectedMAC := hmacSha256 secret body
  let sp := "sha256="
  if sp.length ≤ signature.length then
    match hexDecode (signature.drop sp.length) with
    | none => some false
    | some signatureMAC => some (hmacEqual signatureMAC expectedMAC)
  else none

/-! ### Helper lemmas -/

/-- Walking an already-resolved prefix of keys continues from the value the
prefix resolves to. -/
theorem walkKeys_append :
    ∀ (pre : List String) (val w : JValue) (rest : List String),
    walkKeys val pre = some w → walkKeys val (pre ++ rest) = walkKeys w rest := by
  intro pre
  induction pre with
  | nil =>
    intro val w rest h
    simp only [walkKeys] at h
    cases h
    rfl
  | cons k ks ih =>
    intro val w rest h
    cases val with
    | jobj fields =>
      simp only [walkKeys, List.cons_append] at h ⊢
      cases hl : lookupField fields k with
      | none => rw [hl] at h; exact absurd h (by simp)
      | some v => rw [hl] at h; exact ih v w rest h
    | jstr s => simp [walkKeys] at h
    | jnum q => simp [walkKeys] at h
    | jint n => simp [walkKeys] at h
    | jbool b => simp [walkKeys] at h
    | jnull => simp [walkKeys] at h
    | jarr es => simp [walkKeys] at h

/-- The diagnostic walk over an already-resolved prefix continues from the
value the prefix resolves to, with the prefix appended to the accumulator. -/
theorem walkKeysE_append :
    ∀ (pre acc : List String) (val w : JValue) (rest : List String),
    walkKeys val pre = some w →
    walkKeysE acc val (pre ++ rest) = walkKeysE (acc ++ pre) w rest := by
  intro pre
  induction pre with
  | nil =>
    intro acc val w rest h
    simp only [walkKeys] at h
    cases h
    simp
  | cons k ks ih =>
    intro acc val w rest h
    cases val with
    | jobj fields =>
      simp only [walkKeys, walkKeysE, List.cons_append] at h ⊢
      cases hl : lookupField fields k with
      | none => rw [hl] at h; exact absurd h (by simp)
      | some v =>
        rw [hl] at h
        have hrec := ih (acc ++ [k]) v w rest h
        rw [show acc ++ [k] ++ ks = acc ++ k :: ks by simp] at hrec
        exact hrec
    | jstr s => simp [walkKeys] at h
    | jnum q => simp [walkKeys] at h
    | jint n => simp [walkKeys] at h
    | jbool b => simp [walkKeys] at h
    | jnull => simp [walkKeys] at h
    | jarr es => simp [walkKeys] at h

/-- Hex digits round-trip through encoding. -/
theorem hexDigitVal_hexDigitChar (v : Nat) (h : v < 16) :
    hexDigitVal (hexDigitChar v) = some v := by
  interval_cases v <;> rfl

/-- `hex.DecodeString` inverts `hex.EncodeToString` on byte strings. -/
theorem hexDecode_hexEncode :
    ∀ (bs : List Nat), (∀ b ∈ bs, b < 256) → hexDecode (hexEncode bs) = some bs := by
  intro bs
  induction bs with
  | nil => intro _; rfl
  | cons b rest ih =>
    intro h
    have hb : b < 256 := h b (List.mem_cons_self b rest)
    have hhi : b / 16 < 16 := by omega
    have hlo : b % 16 < 16 := Nat.mod_lt _ (by norm_num)
    have hrest := ih (fun x hx => h x (List.mem_cons_of_mem _ hx))
    simp only [hexEncode, hexDecode, hexDigitVal_hexDigitChar _ hhi,
      hexDigitVal_hexDigitChar _ hlo, hrest, Option.bind_some, Option.some_bind,
      Option.bind_eq_bind]
    have : b / 16 * 16 + b % 16 = b := by omega
    simp [this]





/-! ### Claims -/

/-- Claim C3: over the tree `{"a":{"b":{"c":"d"}}}` with path `["a","b","c"]`,
`LookupMap` (expecting a string) returns `("d", true)`; on any path with a
missing intermediate key `LookupMap` returns the zero value and `false`,
and `LookupMapE` returns an error naming the first missing key segment and
the partial path walked so far; and `LookupMap` reports `found = true` only
when every key resolved and the final type assertion succeeded (no default is
substituted on partial success). -/
theorem lookupMap_contract :
    (LookupMap String [("a", .jobj [("b", .jobj [("c", .jstr "d")])])]
      ["a", "b", "c"] = ("d", true))
    ∧ (∀ (m sub : JObj) (pre post : List String) (k : String),
        walkKeys (.jobj m) pre = some (.jobj sub) →
        lookupField sub k = none →
        LookupMap String m (pre ++ k :: post) = ("", false)
        ∧ LookupMapE String m (pre ++ k :: post)
            = .error (.keyNotFound (pre ++ [k]) sub))
    ∧ (∀ (m : JObj) (keys : List String) (v : String),
        LookupMap String m keys = (v, true) →
        ∃ w, walkKeys (.jobj m) keys = some w
          ∧ GoDyn.assert (T := String) w = some v) := by
  refine ⟨by decide, ?_, ?_⟩
  · intro m sub pre post k hw hk
    have h2 : walkKeys (.jobj m) (pre ++ k :: post) = none := by
      rw [walkKeys_append pre _ _ _ hw]
      simp [walkKeys, hk]
    have h3 : walkKeysE [] (.jobj m) (pre ++ k :: post)
        = .error (.keyNotFound (pre ++ [k]) sub) := by
      rw [walkKeysE_append pre [] _ _ _ hw]
      simp [walkKeysE, hk]
    constructor
    · simp only [LookupMap, h2]
      rfl
    · simp only [LookupMapE, h3]
  · intro m keys v h
    unfold LookupMap at h
    split at h
    · exact absurd h (by simp)
    · rename_i val hw
      split at h
      · exact absurd h (by simp)
      · rename_i r ha
        refine ⟨val, hw, ?_⟩
        rw [ha]
        have hrv := congrArg Prod.fst h
        simpa using hrv

/-- Witness for `lookupMap_contract` at the tree `{"a":{"b":{"c":"d"}}}` and
the path `["a","missed","c"]`. -/
theorem lookupMap_contract_witness :
    LookupMap String [("a", .jobj [("b", .jobj [("c", .jstr "d")])])]
      ["a", "missed", "c"] = ("", false)
    ∧ LookupMapE String [("a", .jobj [("b", .jobj [("c", .jstr "d")])])]
      ["a", "missed", "c"]
      = .error (.keyNotFound ["a", "missed"] [("b", .jobj [("c", .jstr "d")])]) :=
  lookupMap_contract.2.1 [("a", .jobj [("b", .jobj [("c", .jstr "d")])])]
    [("b", .jobj [("c", .jstr "d")])] ["a"] ["c"] "missed" rfl rfl

/-- A payload with a JSON number (Go `float64`) under `"n"`, used to compare
the failure outcomes of an `int`-typed lookup. -/
def numTree : JObj := [("n", .jnum 42)]

/-- Claim C4, counterexample: in the silent variant `LookupMap`, a final value
of the wrong numeric type (a `float64` where an `int` was requested) yields
exactly the same outcome `(0, false)` as an absent key, so the two failure
modes are not distinguishable there, contrary to the claim. -/
theorem lookupMap_numeric_mismatch_counterexample :
    LookupMap Int numTree ["n"] = (0, false)
    ∧ LookupMap Int numTree ["missing"] = (0, false) := by
  constructor <;> rfl

/-- Claim C4, amended: a lookup that resolves every key but finds a value of
the wrong numeric type is distinguishable from an absent key only in the
diagnostic variant `LookupMapE` (a `typeMismatch` error versus a `keyNotFound`
error); the silent variant `LookupMap` returns `(zero, false)` for both. -/
theorem lookupMapE_numeric_mismatch_distinguishable :
    ∀ (m sub : JObj) (pre : List String) (kv km : String) (q : ℚ),
    walkKeys (.jobj m) pre = some (.jobj sub) →
    lookupField sub kv = some (.jnum q) →
    lookupField sub km = none →
    LookupMapE Int m (pre ++ [kv]) = .error (.typeMismatch (.jnum q) "int")
    ∧ LookupMapE Int m (pre ++ [km]) = .error (.keyNotFound (pre ++ [km]) sub)
    ∧ LookupErr.typeMismatch (.jnum q) "int" ≠ .keyNotFound (pre ++ [km]) sub
    ∧ LookupMap Int m (pre ++ [kv]) = (0, false)
    ∧ LookupMap Int m (pre ++ [km]) = (0, false) := by
  intro m sub pre kv km q hw hkv hkm
  have hEv : walkKeysE [] (.jobj m) (pre ++ [kv]) = .ok (.jnum q) := by
    rw [walkKeysE_append pre [] _ _ _ hw]
    simp [walkKeysE, hkv]
  have hEm : walkKeysE [] (.jobj m) (pre ++ [km])
      = .error (.keyNotFound (pre ++ [km]) sub) := by
    rw [walkKeysE_append pre [] _ _ _ hw]
    simp [walkKeysE, hkm]
  have hv : walkKeys (.jobj m) (pre ++ [kv]) = some (.jnum q) := by
    rw [walkKeys_append pre _ _ _ hw]
    simp [walkKeys, hkv]
  have hm : walkKeys (.jobj m) (pre ++ [km]) = none := by
    rw [walkKeys_append pre _ _ _ hw]
    simp [walkKeys, hkm]
  refine ⟨?_, ?_, ?_, ?_, ?_⟩
  · simp only [LookupMapE, hEv]
    rfl
  · simp only [LookupMapE, hEm]
  · intro hEq
    exact LookupErr.noConfusion hEq
  · simp only [LookupMap, hv]
    rfl
  · simp only [LookupMap, hm]
    rfl

/-- Witness for `lookupMapE_numeric_mismatch_distinguishable` at the payload
`{"n": 42}` with the wrong-typed key `"n"` and the absent key `"missing"`. -/
theorem lookupMapE_numeric_mismatch_distinguishable_witness :
    LookupMapE Int numTree ["n"] = .error (.typeMismatch (.jnum 42) "int")
    ∧ LookupMapE Int numTree ["missing"] = .error (.keyNotFound ["missing"] numTree)
    ∧ LookupErr.typeMismatch (.jnum 42) "int" ≠ .keyNotFound ["missing"] numTree
    ∧ LookupMap Int numTree ["n"] = (0, false)
    ∧ LookupMap Int numTree ["missing"] = (0, false) :=
  lookupMapE_numeric_mismatch_distinguishable numTree numTree [] "n" "missing" 42
    rfl rfl rfl

/-- Claim C5: an `X-Github-Event` value outside the eleven-element recognized
set makes `processGithubEvent` return the Skip outcome (no event, no error);
a value inside the set never yields Skip; and the Skip outcome is a different
constructor from every Error outcome (in particular from the defensive
`default`-branch error), so the two are never conflated. -/
theorem processGithubEvent_skip_vs_error :
    ∀ (msgId : String) (headers : Headers) (metadata : JObj) (raw : String)
      (eventType : String) (vs : List String),
    getHeader headers "X-Github-Event" = eventType :: vs →
    ((eventTypes.contains eventType = false →
        processGithubEvent msgId headers metadata raw = .skipped)
     ∧ (eventTypes.contains eventType = true →
        processGithubEvent msgId headers metadata raw ≠ .skipped)
     ∧ (∀ e, ProcessResult.skipped ≠ ProcessResult.failed e)) := by
  intro msgId headers metadata raw eventType vs hEvt
  refine ⟨?_, ?_, ?_⟩
  · intro hC
    have hC2 : eventType ∉ eventTypes := by simpa using hC
    simp [processGithubEvent, hEvt, hC2]
  · intro hC
    simp only [processGithubEvent, hEvt, hC, if_true]
    cases hS : getHeader headers "X-Hub-Signature-256" with
    | nil => simp
    | cons s ss =>
      cases hD : dispatch eventType metadata with
      | none => simp
      | some d =>
        by_cases hok : (d.tOk && d.iOk) = true
        · cases hP : parseRFC3339 d.maybeTimeCreated <;> simp [hok, hP]
        · rw [Bool.not_eq_true] at hok
          simp [hok]
  · intro e hEq
    exact ProcessResult.noConfusion hEq

/-- Witness for `processGithubEvent_skip_vs_error`: the unrecognized type
`"star"` is skipped, while the recognized type `"push"` is not. -/
theorem processGithubEvent_skip_vs_error_witness :
    processGithubEvent "m" [("X-Github-Event", ["star"])] [] "" = .skipped
    ∧ processGithubEvent "m"
        [("X-Github-Event", ["push"]), ("X-Hub-Signature-256", ["s"])] [] ""
        ≠ .skipped :=
  ⟨(processGithubEvent_skip_vs_error "m" [("X-Github-Event", ["star"])] [] ""
      "star" [] rfl).1 rfl,
   (processGithubEvent_skip_vs_error "m"
      [("X-Github-Event", ["push"]), ("X-Hub-Signature-256", ["s"])] [] ""
      "push" [] rfl).2.1 rfl⟩

/-- Claim C6: for a `check_run` event, when `check_run.completed_at` is present
as a string the dispatch rule resolves the timestamp that `processGithubEvent`
goes on to parse to that value; when it is absent and `check_run.started_at`
is present, it resolves to `started_at`. -/
theorem checkRun_timestamp_priority :
    ∀ (metadata : JObj) (ct st : String),
    ((LookupMap String metadata ["check_run", "completed_at"] = (ct, true) →
      dispatch "check_run" metadata = some
        ⟨ct, true, none, (LookupMap String metadata ["check_run", "id"]).1,
          (LookupMap String metadata ["check_run", "id"]).2, none⟩)
     ∧ ((LookupMap String metadata ["check_run", "completed_at"]).2 = false →
        LookupMap String metadata ["check_run", "started_at"] = (st, true) →
        dispatch "check_run" metadata = some
          ⟨st, true, none, (LookupMap String metadata ["check_run", "id"]).1,
            (LookupMap String metadata ["check_run", "id"]).2, none⟩)) := by
  intro metadata ct st
  constructor
  · intro h
    simp [dispatch, h]
  · intro hc hs
    simp [dispatch, hs, hc]

/-- Witness for `checkRun_timestamp_priority`: a payload with both timestamps
resolves to `completed_at`; one with only `started_at` resolves to that. -/
theorem checkRun_timestamp_priority_witness :
    dispatch "check_run"
      [("check_run", .jobj [("completed_at", .jstr "A"), ("started_at", .jstr "B")])]
      = some ⟨"A", true, none, "", false, none⟩
    ∧ dispatch "check_run" [("check_run", .jobj [("started_at", .jstr "B")])]
      = some ⟨"B", true, none, "", false, none⟩ :=
  ⟨(checkRun_timestamp_priority
      [("check_run", .jobj [("completed_at", .jstr "A"), ("started_at", .jstr "B")])]
      "A" "B").1 rfl,
   (checkRun_timestamp_priority [("check_run", .jobj [("started_at", .jstr "B")])]
      "A" "B").2 rfl rfl⟩

/-- Claim C7: for a `pull_request` event whose payload has
`repository.name = "acme/widgets"` and top-level `number = 42` (a JSON
number), together with a `pull_request.updated_at` that parses as RFC 3339,
the produced record's id is `"acme/widgets/42"`. -/
theorem pullRequest_id_composition :
    ∀ (msgId : String) (headers : Headers) (metadata : JObj) (raw : String)
      (vs sv : List String) (sig ts : String) (t : GoTime),
    getHeader headers "X-Github-Event" = "pull_request" :: vs →
    getHeader headers "X-Hub-Signature-256" = sig :: sv →
    LookupMap String metadata ["pull_request", "updated_at"] = (ts, true) →
    parseRFC3339 ts = some t →
    LookupMap String metadata ["repository", "name"] = ("acme/widgets", true) →
    LookupMap ℚ metadata ["number"] = (42, true) →
    ∃ ev, processGithubEvent msgId headers metadata raw = .produced ev
      ∧ ev.id = "acme/widgets/42" := by
  intro msgId headers metadata raw vs sv sig ts t hEvt hSig hT hP hR hN
  have hct : eventTypes.contains "pull_request" = true := by decide
  have hD : dispatch "pull_request" metadata
      = some ⟨ts, true, none, "acme/widgets/42", true, none⟩ := by
    simp [dispatch, hT, hR, hN]
    decide
  simp only [processGithubEvent, hEvt, hct, if_true, hSig, hD, hP]
  exact ⟨_, rfl, rfl⟩

/-- Witness for `pullRequest_id_composition` at a concrete payload with
`number = 42`, `repository.name = "acme/widgets"` and timestamp
`2023-05-01T10:00:00Z`. -/
theorem pullRequest_id_composition_witness :
    ∃ ev, processGithubEvent "m1"
        [("X-Github-Event", ["pull_request"]), ("X-Hub-Signature-256", ["sha256=aa"])]
        [("pull_request", .jobj [("updated_at", .jstr "2023-05-01T10:00:00Z")]),
         ("repository", .jobj [("name", .jstr "acme/widgets")]),
         ("number", .jnum 42)] "{}" = .produced ev
      ∧ ev.id = "acme/widgets/42" :=
  pullRequest_id_composition "m1"
    [("X-Github-Event", ["pull_request"]), ("X-Hub-Signature-256", ["sha256=aa"])]
    [("pull_request", .jobj [("updated_at", .jstr "2023-05-01T10:00:00Z")]),
     ("repository", .jobj [("name", .jstr "acme/widgets")]),
     ("number", .jnum 42)] "{}" [] [] "sha256=aa" "2023-05-01T10:00:00Z"
    ⟨2023, 5, 1, 10, 0, 0, 0, 0⟩ rfl rfl rfl (by decide) rfl (by decide)

/-- Claim C8: for a recognized event type, when both the timestamp extraction
and the id extraction fail, `processGithubEvent` returns one error joining
both causes (time cause first, id cause second); when exactly one fails, the
joined error carries that single cause. -/
theorem processGithubEvent_error_accumulation :
    ∀ (msgId : String) (headers : Headers) (metadata : JObj) (raw : String)
      (eventType sig : String) (vs sv : List String) (d : DispatchOut),
    getHeader headers "X-Github-Event" = eventType :: vs →
    eventTypes.contains eventType = true →
    getHeader headers "X-Hub-Signature-256" = sig :: sv →
    dispatch eventType metadata = some d →
    ((d.tOk = false → d.iOk = false →
       processGithubEvent msgId headers metadata raw
         = .failed (.joined [tCause d, iCause d]))
     ∧ (d.tOk = false → d.iOk = true →
       processGithubEvent msgId headers metadata raw
         = .failed (.joined [tCause d]))
     ∧ (d.tOk = true → d.iOk = false →
       processGithubEvent msgId headers metadata raw
         = .failed (.joined [iCause d]))) := by
  intro msgId headers metadata raw eventType sig vs sv d hEvt hC hSig hD
  have hC2 : eventType ∈ eventTypes := by simpa using hC
  refine ⟨?_, ?_, ?_⟩ <;> intro ht hi <;>
    simp [processGithubEvent, hEvt, hC2, hSig, hD, ht, hi, findErrs]

/-- Witness for `processGithubEvent_error_accumulation`: a recognized `push`
event with an empty payload is missing both fields, and the joined error
reports both causes. -/
theorem processGithubEvent_error_accumulation_witness :
    processGithubEvent "m"
      [("X-Github-Event", ["push"]), ("X-Hub-Signature-256", ["s"])] [] ""
      = .failed (.joined [.noTimeCreated, .noId]) :=
  (processGithubEvent_error_accumulation "m"
    [("X-Github-Event", ["push"]), ("X-Hub-Signature-256", ["s"])] [] ""
    "push" "s" [] [] ⟨"", false, none, "", false, none⟩
    rfl (by decide) rfl rfl).1 rfl rfl

/-- Claim C9: `processGithubEvent` is not total — a headers mapping without
the `X-Github-Event` key (or mapping it to an empty value list) makes it
crash on the out-of-range index `headers["X-Github-Event"][0]`, and for a
recognized event type an absent or empty `X-Hub-Signature-256` makes it crash
on `headers["X-Hub-Signature-256"][0]`, instead of returning Skip or an
error. -/
theorem processGithubEvent_header_panics :
    ∀ (msgId : String) (headers : Headers) (metadata : JObj) (raw : String),
    (getHeader headers "X-Github-Event" = [] →
      processGithubEvent msgId headers metadata raw = .panicked)
    ∧ (∀ (eventType : String) (vs : List String),
        getHeader headers "X-Github-Event" = eventType :: vs →
        eventTypes.contains eventType = true →
        getHeader headers "X-Hub-Signature-256" = [] →
        processGithubEvent msgId headers metadata raw = .panicked) := by
  intro msgId headers metadata raw
  constructor
  · intro h
    simp [processGithubEvent, h]
  · intro eventType vs hEvt hC hSig
    have hC2 : eventType ∈ eventTypes := by simpa using hC
    simp [processGithubEvent, hEvt, hC2, hSig]

/-- Witness for `processGithubEvent_header_panics`: missing `X-Github-Event`,
and a recognized `push` event with missing `X-Hub-Signature-256`. -/
theorem processGithubEvent_header_panics_witness :
    processGithubEvent "m" [] [] "" = .panicked
    ∧ processGithubEvent "m" [("X-Github-Event", ["push"])] [] "" = .panicked :=
  ⟨(processGithubEvent_header_panics "m" [] [] "").1 rfl,
   (processGithubEvent_header_panics "m" [("X-Github-Event", ["push"])] [] "").2
     "push" [] rfl (by decide) rfl⟩

/-- Claim C1: the claim (and the spec) require every malformed header to be
treated as verification failure, never as a runtime fault. The code violates
this for headers shorter than the 7-byte scheme prefix: `signature[7:]`
panics (`slice bounds out of range`), modelled as `none` — here shown on the
empty header (reachable, since `indexPost` leaves the signature empty when
the header is absent: it writes 403 without returning). A header of valid
length with a wrong MAC, by contrast, returns `false` (`some false`, the
bytes below spell `"sha256=00"`). -/
theorem verify256_short_header_panics :
    verifyGithubSignature256 (fun _ _ => [1]) [] [] [] = none
    ∧ verifyGithubSignature256 (fun _ _ => [1]) []
        [115, 104, 97, 50, 53, 54, 61, 48, 48] [] = some false := by
  constructor <;> rfl

/-- Claim C10: `verifyGithubSignature256` never inspects the 7 stripped
prefix bytes — for every HMAC function, secret and body, any signature
header made of 7 arbitrary bytes followed by the lowercase hex encoding of
the expected MAC verifies as authentic. -/
theorem verify256_prefix_unexamined :
    ∀ (hmacSha256 : List Nat → List Nat → List Nat)
      (secret body sp7 : List Nat),
    sp7.length = 7 →
    (∀ b ∈ hmacSha256 secret body, b < 256) →
    verifyGithubSignature256 hmacSha256 secret
      (sp7 ++ hexEncode (hmacSha256 secret body)) body = some true := by
  intro mac secret body sp7 hlen hmac
  have h7 : ("sha256=").length = 7 := rfl
  unfold verifyGithubSignature256
  rw [if_pos (by simp [h7, hlen])]
  rw [show ("sha256=").length = sp7.length by rw [h7, hlen]]
  rw [List.drop_left]
  rw [hexDecode_hexEncode _ hmac]
  simp [hmacEqual]

/-- Witness for `verify256_prefix_unexamined`: a 7-byte garbage prefix
`[0,1,2,3,4,5,6]` followed by the hex of the MAC `[171, 5]` (bytes
`"ab05"`) verifies as authentic. -/
theorem verify256_prefix_unexamined_witness :
    verifyGithubSignature256 (fun _ _ => [171, 5]) [9]
      [0, 1, 2, 3, 4, 5, 6, 97, 98, 48, 53] [7] = some true :=
  verify256_prefix_unexamined (fun _ _ => [171, 5]) [9] [7]
    [0, 1, 2, 3, 4, 5, 6] rfl (by decide)

/-- Claim C2, counterexample: when the downstream sink insert fails after a
successfully produced event, the consumer endpoint responds 200, not 500 as
the claim states (`indexPost` logs the insert error and still writes
`StatusOK`). -/
theorem indexPost_sink_failure_counterexample :
    indexPost (.decoded "m1"
      [("X-Github-Event", ["push"]), ("X-Hub-Signature-256", ["sha256=aa"])]
      [("head_commit", .jobj [("timestamp", .jstr "2023-01-02T03:04:05Z"),
        ("id", .jstr "abc")])] "{}") false = some 200
    ∧ some (200 : Nat) ≠ some 500 := by
  constructor
  · rfl
  · decide

/-- Claim C2, amended: the consumer endpoint responds 500 exactly when a
transport/decoding step fails (unreadable body, undecodable envelope JSON,
undecodable headers JSON, bad base64, bad payload JSON); on Skip, successful
persistence, normalization errors, and also on sink-insert failures it
responds 200. -/
theorem indexPost_status_codes :
    ∀ (input : ConsumerInput) (sinkOk : Bool),
    ((isTransportFail input = true → indexPost input sinkOk = some 500)
     ∧ (indexPost input sinkOk = some 500 → isTransportFail input = true)
     ∧ (∀ (msgId : String) (attrs : Headers) (metadata : JObj) (raw : String),
        input = .decoded msgId attrs metadata raw →
        processGithubEvent msgId attrs metadata raw ≠ .panicked →
        indexPost input sinkOk = some 200)) := by
  intro input sinkOk
  refine ⟨?_, ?_, ?_⟩
  · intro h
    cases input <;> simp_all [indexPost, isTransportFail]
  · intro h
    cases input with
    | decoded msgId attrs metadata raw =>
      exfalso
      simp only [indexPost] at h
      cases hp : processGithubEvent msgId attrs metadata raw <;> rw [hp] at h <;>
        simp at h
    | readBodyFail => rfl
    | envelopeDecodeFail => rfl
    | headersDecodeFail => rfl
    | base64DecodeFail => rfl
    | payloadDecodeFail => rfl
  · intro msgId attrs metadata raw hIn hNp
    subst hIn
    simp only [indexPost]
    cases hp : processGithubEvent msgId attrs metadata raw with
    | panicked => exact absurd hp hNp
    | skipped => rfl
    | failed e => rfl
    | produced ev => cases sinkOk <;> rfl

/-- Witness for `indexPost_status_codes`: a failed envelope decode yields
500; a fully decoded `push` delivery with a failing sink yields 200. -/
theorem indexPost_status_codes_witness :
    indexPost .envelopeDecodeFail true = some 500
    ∧ indexPost (.decoded "m1"
        [("X-Github-Event", ["push"]), ("X-Hub-Signature-256", ["sha256=aa"])]
        [("head_commit", .jobj [("timestamp", .jstr "2023-01-02T03:04:05Z"),
          ("id", .jstr "abc")])] "{}") false = some 200 :=
  ⟨(indexPost_status_codes .envelopeDecodeFail true).1 rfl,
   (indexPost_status_codes _ false).2.2 "m1"
     [("X-Github-Event", ["push"]), ("X-Hub-Signature-256", ["sha256=aa"])]
     [("head_commit", .jobj [("timestamp", .jstr "2023-01-02T03:04:05Z"),
       ("id", .jstr "abc")])] "{}" rfl
     (fun hc => ProcessResult.noConfusion
       ((show processGithubEvent "m1"
           [("X-Github-Event", ["push"]), ("X-Hub-Signature-256", ["sha256=aa"])]
           [("head_commit", .jobj [("timestamp", .jstr "2023-01-02T03:04:05Z"),
             ("id", .jstr "abc")])] "{}"
           = .produced ⟨"push", "abc", "{}", ⟨2023, 1, 2, 3, 4, 5, 0, 0⟩,
             "sha256=aa", "m1", "github"⟩ from rfl).symm.trans hc))⟩
